import Mathlib

/-!
Verification development for the SignOut repository (sign-language word to
SMPL-X animation pipeline).  The definitions below are shallow embeddings of
the Python source files:

  * `blend_pose_sequences`        — streamlit_app.py, lines 11–29
  * the anatomical constraint engine — word_to_smplx.py, lines 93–170
  * the temporal smoother         — word_to_smplx.py, lines 172–187
  * the per-frame NaN sanitization and the evaluate/render loop
                                  — word_to_smplx.py, lines 195–260
  * `transcript_to_words`        — app.py, lines 38–46

Machine floats are modelled as rationals (every float is a rational); the
values that can be NaN or infinite are modelled by the `FVal` type.  The
scipy Gaussian filter (an external dependency) is modelled over the reals
from its documented semantics.
-/

namespace SignOut

/-- Pose frame of the assembled sequence: 156 SMPL-X parameters
(3 global orientation, 63 body pose, 45 left hand, 45 right hand). -/
def PoseFrame : Type := Fin 156 → ℚ

/-- The all-zero pose frame, used as an out-of-range default for list reads
(the Python code never reads out of range). -/
def zeroFrame : PoseFrame := fun _ => 0

/-- Embedding of `blend_pose_sequences(seq_a, seq_b, n_blend)` from
streamlit_app.py lines 11–29.  `seq_a[-n_blend + i]` is the element at index
`seq_a.length - n_blend + i`; `seq_a[:-n_blend]` is `take (length - n_blend)`;
`seq_b[n_blend:]` is `drop n_blend`.  The dead `if not blended_part` branch of
the source is kept. -/
def blend_pose_sequences (seq_a seq_b : List PoseFrame) (n_blend : ℕ) :
    List PoseFrame :=
  if n_blend = 0 ∨ seq_a.length < n_blend ∨ seq_b.length < n_blend then
    seq_a ++ seq_b
  else
    let blended_part : List PoseFrame :=
      (List.range n_blend).map (fun (i : ℕ) =>
        let alpha : ℚ := ((i : ℚ) + 1) / ((n_blend : ℚ) + 1)
        fun p => (1 - alpha) * (seq_a.getD (seq_a.length - n_blend + i) zeroFrame) p
                 + alpha * (seq_b.getD i zeroFrame) p)
    if blended_part.isEmpty then
      seq_a ++ seq_b
    else
      seq_a.take (seq_a.length - n_blend) ++ blended_part ++ seq_b.drop n_blend

/-- The blended part built in the else-branch has exactly `n_blend` frames. -/
theorem blend_blended_part_length (seq_a seq_b : List PoseFrame) (n_blend : ℕ) :
    ((List.range n_blend).map (fun (i : ℕ) =>
        let alpha : ℚ := ((i : ℚ) + 1) / ((n_blend : ℚ) + 1)
        fun p => (1 - alpha) * (seq_a.getD (seq_a.length - n_blend + i) zeroFrame) p
                 + alpha * (seq_b.getD i zeroFrame) p)).length = n_blend := by
  simp

/-- C1 (counterexample): the claim "with 0 < k ≤ min(N1, N2) the blend yields
length N1 + N2" is false on the code: for two one-frame sequences and blend
width 1 the result has a single frame, not 2. -/
theorem blend_length_claim_counterexample :
    (0 < 1 ∧ 1 ≤ Nat.min [zeroFrame].length [zeroFrame].length) ∧
      (blend_pose_sequences [zeroFrame] [zeroFrame] 1).length ≠
        [zeroFrame].length + [zeroFrame].length := by
  refine ⟨by decide, ?_⟩
  decide

/-- C1 (amended): concatenating sequences of length N1 and N2 with blending
disabled (k = 0, or either sequence shorter than k) yields length N1 + N2;
with blend width 0 < k ≤ min(N1, N2) the blend yields length N1 + N2 - k:
the trailing k frames of A and the leading k frames of B are replaced by a
single window of k interpolated frames. -/
theorem blend_pose_sequences_length (seq_a seq_b : List PoseFrame) (k : ℕ) :
    ((k = 0 ∨ seq_a.length < k ∨ seq_b.length < k) →
      (blend_pose_sequences seq_a seq_b k).length = seq_a.length + seq_b.length) ∧
    (0 < k → k ≤ seq_a.length → k ≤ seq_b.length →
      (blend_pose_sequences seq_a seq_b k).length =
        seq_a.length + seq_b.length - k) := by
  constructor
  · intro h
    rw [blend_pose_sequences, if_pos h, List.length_append]
  · intro hk ha hb
    rw [blend_pose_sequences, if_neg (by push_neg; omega)]
    simp only
    rw [if_neg (by simp [List.isEmpty_iff]; omega)]
    simp only [List.length_append, List.length_take, List.length_map,
      List.length_range, List.length_drop]
    omega

/-- C1 (witness): the amended length law evaluated at two one-frame sequences
with blend width 1. -/
theorem blend_pose_sequences_length_witness :
    (blend_pose_sequences [zeroFrame] [zeroFrame] 1).length =
      [zeroFrame].length + [zeroFrame].length - 1 :=
  (blend_pose_sequences_length [zeroFrame] [zeroFrame] 1).2
    (by decide) (by decide) (by decide)

/-- C6: with 0 < k and both sequences at least k frames long, the blended
window's frame at zero-based blend index i (position N1 - k + i of the
result) is (1 - alpha) * A[N1 - k + i] + alpha * B[i] with
alpha = (i + 1) / (k + 1), applied identically to every one of the 156
parameters; with k = 0, or either sequence shorter than k frames, the result
is the plain concatenation of A and B with no blending. -/
theorem blend_pose_sequences_window (seq_a seq_b : List PoseFrame) (k : ℕ) :
    ((k = 0 ∨ seq_a.length < k ∨ seq_b.length < k) →
      blend_pose_sequences seq_a seq_b k = seq_a ++ seq_b) ∧
    (0 < k → k ≤ seq_a.length → k ≤ seq_b.length → ∀ i < k,
      (blend_pose_sequences seq_a seq_b k).getD (seq_a.length - k + i) zeroFrame =
        fun p => (1 - ((i : ℚ) + 1) / ((k : ℚ) + 1)) *
                   (seq_a.getD (seq_a.length - k + i) zeroFrame) p
                 + (((i : ℚ) + 1) / ((k : ℚ) + 1)) *
                   (seq_b.getD i zeroFrame) p) := by
  constructor
  · intro h
    rw [blend_pose_sequences, if_pos h]
  · intro hk ha hb i hi
    rw [blend_pose_sequences, if_neg (by omega)]
    simp only
    rw [if_neg (by simp [List.isEmpty_iff]; omega)]
    have hta : (seq_a.take (seq_a.length - k)).length = seq_a.length - k := by
      simp [List.length_take]
    rw [List.append_assoc, List.getD_append_right _ _ _ _ (by omega), hta,
      show seq_a.length - k + i - (seq_a.length - k) = i by omega,
      List.getD_append _ _ _ _ (by simpa using hi),
      List.getD_eq_getElem _ _ (by simpa using hi)]
    simp

/-- C6 (witness): the window formula evaluated at two one-frame sequences with
blend width 1 and blend index 0. -/
theorem blend_pose_sequences_window_witness :
    (blend_pose_sequences [zeroFrame] [zeroFrame] 1).getD
        ([zeroFrame].length - 1 + 0) zeroFrame =
      fun p => (1 - ((0 : ℚ) + 1) / ((1 : ℚ) + 1)) *
                 ([zeroFrame].getD ([zeroFrame].length - 1 + 0) zeroFrame) p
               + (((0 : ℚ) + 1) / ((1 : ℚ) + 1)) *
                 ([zeroFrame].getD 0 zeroFrame) p :=
  (blend_pose_sequences_window [zeroFrame] [zeroFrame] 1).2
    (by decide) (by decide) (by decide) 0 (by decide)

/-- Embedding of `np.clip(x, lo, hi)`: `minimum(maximum(x, lo), hi)`. -/
def np_clip {α : Type} [LinearOrder α] (x lo hi : α) : α := min (max x lo) hi

/-- Embedding of `_get_finger_joint_mapping` (word_to_smplx.py lines 93–101):
each entry is (finger name, joint type, start index, end index) of a 3-DoF
slice of the 45-value hand pose vector, in the source's insertion order. -/
def finger_joint_mapping : List (String × String × ℕ × ℕ) :=
  [("thumb", "cmc", 0, 3), ("thumb", "mcp", 3, 6), ("thumb", "ip", 6, 9),
   ("index", "mcp", 9, 12), ("index", "pip", 12, 15), ("index", "dip", 15, 18),
   ("middle", "mcp", 18, 21), ("middle", "pip", 21, 24), ("middle", "dip", 24, 27),
   ("ring", "mcp", 27, 30), ("ring", "pip", 30, 33), ("ring", "dip", 33, 36),
   ("pinky", "mcp", 36, 39), ("pinky", "pip", 39, 42), ("pinky", "dip", 42, 45)]

/-- Embedding of the `_get_hand_joint_limits` table (word_to_smplx.py lines
103–132).  The `general_clamp` entry (± np.pi) is referenced only by
commented-out code and is never used by the constraint engine, so it is not
part of the model. -/
def hand_joint_limits (α : Type) [LinearOrderedField α] (name : String) :
    Option (α × α) :=
  if name = "mcp_flexion" then some (0, 1.57)
  else if name = "mcp_abduction" then some (-0.35, 0.35)
  else if name = "mcp_twist" then some (-0.2, 0.2)
  else if name = "pip_flexion" then some (0, 1.75)
  else if name = "pip_side_flex" then some (-0.1, 0.1)
  else if name = "pip_twist" then some (-0.1, 0.1)
  else if name = "dip_flexion" then some (0, 1.22)
  else if name = "dip_side_flex" then some (-0.05, 0.05)
  else if name = "dip_twist" then some (-0.05, 0.05)
  else if name = "thumb_cmc_flexion" then some (-0.5, 0.9)
  else if name = "thumb_cmc_abduction" then some (0, 1.22)
  else if name = "thumb_cmc_twist" then some (-0.5, 0.5)
  else if name = "thumb_mcp_flexion" then some (-0.2, 0.9)
  else if name = "thumb_mcp_abduction" then some (-0.1, 0.1)
  else if name = "thumb_mcp_twist" then some (-0.2, 0.2)
  else if name = "thumb_ip_flexion" then some (-0.2, 1.4)
  else if name = "thumb_ip_side_flex" then some (-0.1, 0.1)
  else if name = "thumb_ip_twist" then some (-0.1, 0.1)
  else none

/-- The limit interval that the if/elif chain of
`_apply_anatomical_constraints_to_frame` (word_to_smplx.py lines 142–167)
selects for DoF `d` of joint `joint` of finger `finger`; `none` means no
branch matches and the parameter is left unchanged. -/
def dof_limit (α : Type) [LinearOrderedField α] (finger joint : String)
    (d : ℕ) : Option (α × α) :=
  if finger = "thumb" then
    if joint = "cmc" then
      if d = 0 then hand_joint_limits α "thumb_cmc_flexion"
      else if d = 1 then hand_joint_limits α "thumb_cmc_abduction"
      else if d = 2 then hand_joint_limits α "thumb_cmc_twist"
      else none
    else if joint = "mcp" then
      if d = 0 then hand_joint_limits α "thumb_mcp_flexion"
      else if d = 1 then hand_joint_limits α "thumb_mcp_abduction"
      else if d = 2 then hand_joint_limits α "thumb_mcp_twist"
      else none
    else if joint = "ip" then
      if d = 0 then hand_joint_limits α "thumb_ip_flexion"
      else if d = 1 then hand_joint_limits α "thumb_ip_side_flex"
      else if d = 2 then hand_joint_limits α "thumb_ip_twist"
      else none
    else none
  else
    if joint = "mcp" then
      if d = 0 then hand_joint_limits α "mcp_flexion"
      else if d = 1 then hand_joint_limits α "mcp_abduction"
      else if d = 2 then hand_joint_limits α "mcp_twist"
      else none
    else if joint = "pip" then
      if d = 0 then hand_joint_limits α "pip_flexion"
      else if d = 1 then hand_joint_limits α "pip_side_flex"
      else if d = 2 then hand_joint_limits α "pip_twist"
      else none
    else if joint = "dip" then
      if d = 0 then hand_joint_limits α "dip_flexion"
      else if d = 1 then hand_joint_limits α "dip_side_flex"
      else if d = 2 then hand_joint_limits α "dip_twist"
      else none
    else none

/-- Read of flat index `i` of a 45-value hand pose array (always in range in
the source; out-of-range reads default to 0). -/
def get_param {α : Type} [Zero α] (pose : Fin 45 → α) (i : ℕ) : α :=
  if h : i < 45 then pose ⟨i, h⟩ else 0

/-- Write of flat index `i` of a 45-value hand pose array. -/
def set_param {α : Type} (pose : Fin 45 → α) (i : ℕ) (v : α) : Fin 45 → α :=
  fun j => if j.val = i then v else pose j

/-- One iteration of the joint loop of `_apply_anatomical_constraints_to_frame`
for one mapping entry: the joint's three DoF parameters are clipped in order
against the limits the if/elif chain selects; a DoF with no matching branch is
left unchanged. -/
def update_joint {α : Type} [LinearOrderedField α] (pose : Fin 45 → α)
    (entry : String × String × ℕ × ℕ) : Fin 45 → α :=
  [0, 1, 2].foldl (fun p d =>
    match dof_limit α entry.1 entry.2.1 d with
    | none => p
    | some (lo, hi) =>
        set_param p (entry.2.2.1 + d) (np_clip (get_param p (entry.2.2.1 + d)) lo hi)) pose

/-- Embedding of `_apply_anatomical_constraints_to_frame` (word_to_smplx.py
lines 134–170) as the pure function it computes: fold the joint-loop body over
the 15 mapping entries, starting from the copied input frame. -/
def apply_anatomical_constraints_to_frame {α : Type} [LinearOrderedField α]
    (hand_pose_frame : Fin 45 → α) : Fin 45 → α :=
  finger_joint_mapping.foldl update_joint hand_pose_frame

/-- The limit interval in effect at flat hand-pose index `i`: the unique
mapping entry whose slice contains `i`, queried at DoF `i - start`. -/
def limits_at_index (α : Type) [LinearOrderedField α] (i : ℕ) : Option (α × α) :=
  finger_joint_mapping.findSome? (fun entry =>
    if entry.2.2.1 ≤ i ∧ i < entry.2.2.2 then
      dof_limit α entry.1 entry.2.1 (i - entry.2.2.1)
    else none)

set_option maxHeartbeats 1600000 in
/-- Pointwise evaluation of the constraint engine: the output at index `j` is
the input at `j` clipped to the interval in effect at `j` (the 15 slices are
disjoint and cover all 45 indices). -/
theorem apply_constraints_eval (f : Fin 45 → ℚ) (j : Fin 45) (lo hi : ℚ)
    (h : limits_at_index ℚ j.val = some (lo, hi)) :
    apply_anatomical_constraints_to_frame f j = np_clip (f j) lo hi := by
  fin_cases j <;>
    (injection h with h1; injection h1 with h2 h3; subst h2; subst h3; rfl)

/-- Every flat hand-pose index has a declared limit interval. -/
theorem limits_at_index_total (j : Fin 45) :
    ∃ p : ℚ × ℚ, limits_at_index ℚ j.val = some p := by
  fin_cases j <;> exact ⟨_, rfl⟩

/-- C4: for every 45-value hand pose frame, every output value of the
constraint engine lies within the closed interval the joint-limit table
declares for its (joint-type, DoF) pair, for all 15 joint entries and all 3
DoFs.  The engine is a total function, so no input can make it fail. -/
theorem constraints_within_declared_limits (f : Fin 45 → ℚ)
    (finger joint : String) (s e : ℕ)
    (hmem : (finger, joint, s, e) ∈ finger_joint_mapping)
    (d : ℕ) (hd : d < 3) (lo hi : ℚ)
    (hlim : dof_limit ℚ finger joint d = some (lo, hi)) (hj : s + d < 45) :
    lo ≤ apply_anatomical_constraints_to_frame f ⟨s + d, hj⟩ ∧
      apply_anatomical_constraints_to_frame f ⟨s + d, hj⟩ ≤ hi := by
  have hidx : limits_at_index ℚ ((⟨s + d, hj⟩ : Fin 45)).val = some (lo, hi) := by
    fin_cases hmem <;> interval_cases d <;> exact hlim
  have hle : lo ≤ hi := by
    fin_cases hmem <;> interval_cases d <;>
      (injection hlim with h1; injection h1 with h2 h3; subst h2; subst h3; norm_num)
  rw [apply_constraints_eval f _ lo hi hidx]
  exact ⟨le_min (le_max_right _ _) hle, min_le_right _ _⟩

/-- C4 (witness): the index finger's MCP flexion (index 9, DoF 0) of the
constant frame 2 is clipped into the declared interval [0, 1.57]. -/
theorem constraints_within_declared_limits_witness :
    (0 : ℚ) ≤ apply_anatomical_constraints_to_frame (fun _ => (2 : ℚ)) ⟨9 + 0, by norm_num⟩ ∧
      apply_anatomical_constraints_to_frame (fun _ => (2 : ℚ)) ⟨9 + 0, by norm_num⟩ ≤ 1.57 :=
  constraints_within_declared_limits (fun _ => 2) "index" "mcp" 9 12 (by decide)
    0 (by norm_num) 0 1.57 rfl (by norm_num)

/-- Clipping to the same interval twice gives the same result as once. -/
theorem np_clip_idem {α : Type} [LinearOrder α] (x lo hi : α) :
    np_clip (np_clip x lo hi) lo hi = np_clip x lo hi := by
  unfold np_clip
  rcases le_total lo hi with h | h
  · have h1 : lo ≤ min (max x lo) hi := le_min (le_max_right x lo) h
    rw [max_eq_left h1, min_eq_left (min_le_right _ _)]
  · have h2 : min (max x lo) hi = hi :=
      min_eq_right (le_trans h (le_max_right x lo))
    rw [h2, max_eq_right h, min_eq_right h]

/-- C5: the constraint engine is idempotent: applying
`_apply_anatomical_constraints_to_frame` twice yields the same result as
applying it once (clipping is a projection). -/
theorem constraints_idempotent (f : Fin 45 → ℚ) :
    apply_anatomical_constraints_to_frame (apply_anatomical_constraints_to_frame f) =
      apply_anatomical_constraints_to_frame f := by
  funext j
  obtain ⟨⟨lo, hi⟩, h⟩ := limits_at_index_total j
  rw [apply_constraints_eval _ j lo hi h, apply_constraints_eval f j lo hi h,
    np_clip_idem]

/-- Memory state of one call of `_apply_anatomical_constraints_to_frame`: the
caller's input array `hand_pose_frame_np` and the private copy
`constrained_pose` created by `np.copy`. -/
structure ConstraintCallState (α : Type) where
  hand_pose_frame : Fin 45 → α
  constrained_pose : Fin 45 → α

/-- State-passing embedding of `_apply_anatomical_constraints_to_frame`
(word_to_smplx.py lines 134–170): `constrained_pose` starts as a copy of the
input, and every write of the loop (the `joint_params` slice is a view of
`constrained_pose`) targets the copy only. -/
def apply_anatomical_constraints_run {α : Type} [LinearOrderedField α]
    (hand_pose_frame : Fin 45 → α) : ConstraintCallState α :=
  finger_joint_mapping.foldl
    (fun st entry =>
      { st with constrained_pose := update_joint st.constrained_pose entry })
    { hand_pose_frame := hand_pose_frame, constrained_pose := hand_pose_frame }

/-- A fold that writes only the `constrained_pose` component leaves the
`hand_pose_frame` component untouched. -/
theorem foldl_write_constrained {α : Type} [LinearOrderedField α]
    (l : List (String × String × ℕ × ℕ)) (st : ConstraintCallState α) :
    l.foldl (fun st entry =>
        { st with constrained_pose := update_joint st.constrained_pose entry }) st =
      { hand_pose_frame := st.hand_pose_frame,
        constrained_pose := l.foldl update_joint st.constrained_pose } := by
  induction l generalizing st with
  | nil => rfl
  | cons e l ih => simp [List.foldl_cons, ih]

/-- C9: the constraint engine is a pure transform: after a call, the input
frame is unchanged (all writes went to the private copy), and the value
returned is the pure function of the input. -/
theorem constraints_pure (f : Fin 45 → ℚ) :
    (apply_anatomical_constraints_run f).hand_pose_frame = f ∧
      (apply_anatomical_constraints_run f).constrained_pose =
        apply_anatomical_constraints_to_frame f := by
  rw [apply_anatomical_constraints_run, foldl_write_constrained]
  exact ⟨rfl, rfl⟩

/-- A float32 value as the evaluator sees it: a finite value (a rational),
NaN, +Inf or -Inf. -/
inductive FVal where
  | finite (q : ℚ)
  | nan
  | pinf
  | ninf
deriving DecidableEq

/-- Largest finite float32 value, (2 - 2 ^ (-23)) * 2 ^ 127. -/
def float32_max : ℚ := 2 ^ 128 - 2 ^ 104

/-- Embedding of `torch.nan_to_num` with its default arguments: NaN becomes
0.0, +Inf becomes the dtype's largest finite value, -Inf its lowest. -/
def nan_to_num (v : FVal) : FVal :=
  match v with
  | .finite q => .finite q
  | .nan => .finite 0
  | .pinf => .finite float32_max
  | .ninf => .finite (-float32_max)

/-- Embedding of `torch.isnan(t).any()` on a 45-value hand pose tensor. -/
def has_nan (h : Fin 45 → FVal) : Prop := ∃ i, h i = FVal.nan

instance (h : Fin 45 → FVal) : Decidable (has_nan h) :=
  inferInstanceAs (Decidable (∃ i, h i = FVal.nan))

/-- True exactly on finite values (NaN and ± Inf are the non-finite ones). -/
def is_finite_val (v : FVal) : Bool :=
  match v with
  | .finite _ => true
  | _ => false

/-- Embedding of the per-frame hand sanitization of `render_animation`
(word_to_smplx.py lines 221–225): if either hand tensor contains a NaN, both
hands are passed through `torch.nan_to_num`; otherwise both are passed to the
body model unchanged. -/
def sanitize_hands (lhp rhp : Fin 45 → FVal) :
    (Fin 45 → FVal) × (Fin 45 → FVal) :=
  if has_nan lhp ∨ has_nan rhp then
    (fun i => nan_to_num (lhp i), fun i => nan_to_num (rhp i))
  else (lhp, rhp)

/-- A left hand whose first entry is +Inf and whose other entries are 0. -/
def inf_left_hand : Fin 45 → FVal :=
  fun i => if i.val = 0 then FVal.pinf else FVal.finite 0

/-- An all-zero (neutral) hand. -/
def zero_hand_vals : Fin 45 → FVal := fun _ => FVal.finite 0

/-- C2 (counterexample): the claim "non-finite (NaN or Inf) entries are
replaced with zero before calling the body model" is false on the code: a
hand vector whose entry 0 is +Inf (non-finite) and which contains no NaN is
passed to the body model unchanged — entry 0 stays +Inf, it is not replaced
with zero. -/
theorem sanitize_hands_inf_counterexample :
    is_finite_val (inf_left_hand 0) = false ∧
      (sanitize_hands inf_left_hand zero_hand_vals).1 0 ≠ FVal.finite 0 ∧
      (sanitize_hands inf_left_hand zero_hand_vals).1 0 = FVal.pinf := by
  refine ⟨rfl, ?_, ?_⟩ <;> decide

/-- C2 (amended): the sanitization triggers on NaN only.  If either hand's
45-value vector contains a NaN at evaluation time, the evaluator passes both
hand vectors through `nan_to_num` — every NaN entry becomes zero, every ± Inf
entry becomes the largest/lowest finite value — and the result contains no
NaN; the sanitization is a total function, so it never fails the request.  If
neither hand contains a NaN, both hands are passed to the body model
unchanged (in particular Inf entries survive). -/
theorem sanitize_hands_nan_only (lhp rhp : Fin 45 → FVal) :
    ((has_nan lhp ∨ has_nan rhp) →
      (∀ i, lhp i = FVal.nan → (sanitize_hands lhp rhp).1 i = FVal.finite 0) ∧
      (∀ i, rhp i = FVal.nan → (sanitize_hands lhp rhp).2 i = FVal.finite 0) ∧
      (∀ i, lhp i = FVal.pinf → (sanitize_hands lhp rhp).1 i = FVal.finite float32_max) ∧
      (∀ i, (sanitize_hands lhp rhp).1 i ≠ FVal.nan ∧
            (sanitize_hands lhp rhp).2 i ≠ FVal.nan)) ∧
    (¬ (has_nan lhp ∨ has_nan rhp) → sanitize_hands lhp rhp = (lhp, rhp)) := by
  constructor
  · intro h
    rw [sanitize_hands, if_pos h]
    refine ⟨fun i hi => by simp [nan_to_num, hi],
            fun i hi => by simp [nan_to_num, hi],
            fun i hi => by simp [nan_to_num, hi],
            fun i => ⟨?_, ?_⟩⟩ <;>
      (simp only; cases hl : lhp i <;> cases hr : rhp i <;> simp [nan_to_num, hl, hr])
  · intro h
    rw [sanitize_hands, if_neg h]

/-- A left hand whose first entry is NaN and whose other entries are 0. -/
def nan_left_hand : Fin 45 → FVal :=
  fun i => if i.val = 0 then FVal.nan else FVal.finite 0

/-- C2 (witness): for a left hand with a NaN in entry 0, the sanitized left
hand has zero at entry 0. -/
theorem sanitize_hands_nan_only_witness :
    (sanitize_hands nan_left_hand zero_hand_vals).1 0 = FVal.finite 0 :=
  ((sanitize_hands_nan_only nan_left_hand zero_hand_vals).1
    (Or.inl ⟨0, by decide⟩)).1 0 (by decide)

/-- Per-frame parameters handed to the SMPL-X body model inside the render
loop (word_to_smplx.py lines 215–244): the (already rotated) global
orientation, the body pose, and the (already smoothed, constrained and
sanitized) left and right hand poses.  The constant `betas = zeros(1, 10)` of
both calls is not a parameter. -/
structure FrameParams where
  global_orient : Fin 3 → ℚ
  body_pose : Fin 63 → ℚ
  left_hand_pose : Fin 45 → ℚ
  right_hand_pose : Fin 45 → ℚ

/-- The retry parameters of the `except` branch (lines 237–244): both hand
poses forced to `torch.zeros_like`, global orientation and body pose kept. -/
def zero_hands (p : FrameParams) : FrameParams :=
  { p with left_hand_pose := fun _ => 0, right_hand_pose := fun _ => 0 }

/-- One frame's body-model evaluation with the single automatic retry
(word_to_smplx.py lines 226–244): call the model; on an exception, call it
once more with both hand poses zeroed — this second call is not guarded, so
its exception propagates. -/
def smplx_eval_with_retry {O E : Type} (model : FrameParams → Except E O)
    (p : FrameParams) : Except E O :=
  match model p with
  | .ok out => .ok out
  | .error _ => model (zero_hands p)

/-- What `render_animation` returns: either the list of rendered video frames
(lines 254, 258–260), or — when no renderer is available — the raw body-model
output of the frame being processed (line 257). -/
inductive RenderReturn (O I : Type) where
  | video (frames : List I)
  | raw (out : O)
deriving DecidableEq

/-- The frame loop of `render_animation` (word_to_smplx.py lines 214–260):
for each frame evaluate the model (with the single retry); an unrecovered
exception propagates; with a renderer, rasterize and accumulate the frame;
without one, return the current frame's raw model output immediately. -/
def render_frames_loop {O I E : Type} (renderer_available : Bool)
    (model : FrameParams → Except E O) (render : O → I) :
    List FrameParams → List I → Except E (RenderReturn O I)
  | [], frames => .ok (.video frames)
  | p :: ps, frames =>
    match smplx_eval_with_retry model p with
    | .error err => .error err
    | .ok out =>
      if renderer_available then
        render_frames_loop renderer_available model render ps (frames ++ [render out])
      else .ok (.raw out)

/-- Embedding of the evaluation/render part of `render_animation` applied to
an assembled per-frame parameter sequence; the body model and the rasteriser
are abstract collaborators. -/
def render_animation {O I E : Type} (renderer_available : Bool)
    (model : FrameParams → Except E O) (render : O → I)
    (ps : List FrameParams) : Except E (RenderReturn O I) :=
  render_frames_loop renderer_available model render ps []

/-- C3: with no renderer available, `render_animation` short-circuits: it
returns the raw model output of the first frame (not a video) without raising,
and the frames after the first are never processed — the result is the same
as for the one-frame sequence. -/
theorem render_animation_no_renderer {O I E : Type}
    (model : FrameParams → Except E O) (render : O → I)
    (p : FrameParams) (ps : List FrameParams) (out : O)
    (h : smplx_eval_with_retry model p = .ok out) :
    render_animation false model render (p :: ps) =
        .ok (RenderReturn.raw out) ∧
      render_animation false model render (p :: ps) =
        render_animation false model render [p] := by
  constructor <;> simp [render_animation, render_frames_loop, h]

/-- An always-succeeding stand-in body model used by the witnesses. -/
def model_ok : FrameParams → Except String ℕ := fun _ => .ok 7

/-- An always-failing stand-in body model used by the witnesses. -/
def model_fail : FrameParams → Except String ℕ := fun _ => .error "numerical error"

/-- The all-zero frame parameters used by the witnesses. -/
def frame_params0 : FrameParams :=
  { global_orient := fun _ => 0, body_pose := fun _ => 0,
    left_hand_pose := fun _ => 0, right_hand_pose := fun _ => 0 }

/-- C3 (witness): the renderer-absent short-circuit evaluated on a concrete
two-frame sequence with a model that returns 7. -/
theorem render_animation_no_renderer_witness :
    render_animation false model_ok (fun o => o) [frame_params0, frame_params0] =
        .ok (RenderReturn.raw 7) ∧
      render_animation false model_ok (fun o => o) [frame_params0, frame_params0] =
        render_animation false model_ok (fun o => o) [frame_params0] :=
  render_animation_no_renderer model_ok (fun o => o) frame_params0 [frame_params0] 7 rfl

/-- C7: if the body model raises on a frame, that frame is retried exactly
once with both hand poses forced to zero while its global orientation and
body pose are kept; if the retry also raises, the error propagates and the
whole sequence evaluation aborts with it — frames are never silently
skipped beyond the single retry. -/
theorem render_retry_once_then_abort {O I E : Type}
    (model : FrameParams → Except E O) (render : O → I)
    (pre post : List FrameParams) (p : FrameParams) (err0 err : E)
    (hpre : ∀ q ∈ pre, ∃ out, smplx_eval_with_retry model q = .ok out)
    (hfail : model p = .error err0)
    (hretry : model (zero_hands p) = .error err) :
    smplx_eval_with_retry model p = model (zero_hands p) ∧
      (zero_hands p).global_orient = p.global_orient ∧
      (zero_hands p).body_pose = p.body_pose ∧
      (zero_hands p).left_hand_pose = (fun _ => 0) ∧
      (zero_hands p).right_hand_pose = (fun _ => 0) ∧
      render_animation true model render (pre ++ p :: post) = .error err := by
  refine ⟨by rw [smplx_eval_with_retry, hfail], rfl, rfl, rfl, rfl, ?_⟩
  have habort : ∀ frames, render_frames_loop true model render (pre ++ p :: post) frames
      = .error err := by
    induction pre with
    | nil =>
        intro frames
        rw [List.nil_append, render_frames_loop,
          show smplx_eval_with_retry model p = .error err by
            rw [smplx_eval_with_retry, hfail, hretry]]
    | cons q pre ih =>
        intro frames
        obtain ⟨out, hq⟩ := hpre q (List.mem_cons_self q pre)
        have ih' := ih (fun q hq' => hpre q (List.mem_cons_of_mem _ hq'))
        rw [List.cons_append, render_frames_loop, hq]
        simpa using ih' (frames ++ [render out])
  exact habort []

/-- C7 (witness): the retry-then-abort law evaluated on a concrete one-frame
sequence with an always-failing model. -/
theorem render_retry_once_then_abort_witness :
    smplx_eval_with_retry model_fail frame_params0 =
        model_fail (zero_hands frame_params0) ∧
      (zero_hands frame_params0).global_orient = frame_params0.global_orient ∧
      (zero_hands frame_params0).body_pose = frame_params0.body_pose ∧
      (zero_hands frame_params0).left_hand_pose = (fun _ => 0) ∧
      (zero_hands frame_params0).right_hand_pose = (fun _ => 0) ∧
      render_animation true model_fail (fun o => o) ([] ++ frame_params0 :: []) =
        .error "numerical error" :=
  render_retry_once_then_abort model_fail (fun o => o) [] [] frame_params0
    "numerical error" "numerical error" (by simp) rfl rfl

/-- Kernel radius of `scipy.ndimage.gaussian_filter1d` with the default
`truncate = 4.0`: `int(truncate * sigma + 0.5)`. -/
noncomputable def gaussian_radius (sigma : ℝ) : ℤ := ⌊4 * sigma + 1 / 2⌋

/-- Unnormalised Gaussian kernel weight at integer offset `k`. -/
noncomputable def gaussian_weight (sigma : ℝ) (k : ℤ) : ℝ :=
  Real.exp (-((k : ℝ) ^ 2) / (2 * sigma ^ 2))

/-- Normalisation constant: the sum of the kernel weights over the window. -/
noncomputable def gaussian_norm (sigma : ℝ) : ℝ :=
  Finset.sum (Finset.Icc (-(gaussian_radius sigma)) (gaussian_radius sigma))
    (fun k => gaussian_weight sigma k)

/-- Read of index `j` (an integer, possibly out of range) of a channel under
the `mode = nearest` boundary rule: the index is clamped to [0, N-1]. -/
noncomputable def nearest_get (xs : List ℝ) (j : ℤ) : ℝ :=
  xs.getD (max 0 (min j ((xs.length : ℤ) - 1))).toNat 0

/-- Model of `scipy.ndimage.gaussian_filter1d(xs, sigma, mode=nearest)`
(an external dependency of `_process_hand_pose_data`), from its documented
semantics: correlate the channel with the truncated, normalised Gaussian
kernel, extending the boundary with the nearest value. -/
noncomputable def gaussian_filter1d (sigma : ℝ) (xs : List ℝ) : List ℝ :=
  (List.range xs.length).map (fun i =>
    Finset.sum (Finset.Icc (-(gaussian_radius sigma)) (gaussian_radius sigma))
      (fun k => (gaussian_weight sigma k / gaussian_norm sigma) *
        nearest_get xs ((i : ℤ) + k)))

/-- The smoothing step of `_process_hand_pose_data` (word_to_smplx.py lines
174–178): if the sequence has more than one frame, each of the 45 parameter
channels is filtered independently along the frame axis; otherwise the
sequence is left as it is. -/
noncomputable def smooth_hand_pose (sigma : ℝ) (seq : List (Fin 45 → ℝ)) :
    List (Fin 45 → ℝ) :=
  if 1 < seq.length then
    (List.range seq.length).map (fun (i : ℕ) (c : Fin 45) =>
      (gaussian_filter1d sigma (seq.map (fun frame => frame c))).getD i 0)
  else seq

/-- Embedding of `_process_hand_pose_data` (word_to_smplx.py lines 172–187):
smoothing followed by the per-frame anatomical constraint pass. -/
noncomputable def process_hand_pose_data (sigma : ℝ) (seq : List (Fin 45 → ℝ)) :
    List (Fin 45 → ℝ) :=
  (smooth_hand_pose sigma seq).map
    (fun frame => apply_anatomical_constraints_to_frame frame)

/-- C8: the smoothing step of `_process_hand_pose_data` is the identity on
sequences of fewer than 2 frames, and for every sigma > 0 and N >= 2 the
smoothed output has the same number of frames as the input (each frame being
a 45-channel vector by type). -/
theorem smooth_hand_pose_shape (sigma : ℝ) (seq : List (Fin 45 → ℝ)) :
    (seq.length < 2 → smooth_hand_pose sigma seq = seq) ∧
    (0 < sigma → 2 ≤ seq.length →
      (smooth_hand_pose sigma seq).length = seq.length) := by
  constructor
  · intro h
    rw [smooth_hand_pose, if_neg (by omega)]
  · intro _ h
    rw [smooth_hand_pose, if_pos (by omega)]
    simp

/-- The all-zero smoother input frame used by the witness. -/
noncomputable def zero_smoother_frame : Fin 45 → ℝ := fun _ => 0

/-- C8 (witness): a single-frame sequence passes through the smoothing step
unchanged, and a two-frame sequence keeps its two frames. -/
theorem smooth_hand_pose_shape_witness :
    smooth_hand_pose 1 [zero_smoother_frame] = [zero_smoother_frame] ∧
      (smooth_hand_pose 1 [zero_smoother_frame, zero_smoother_frame]).length =
        [zero_smoother_frame, zero_smoother_frame].length :=
  ⟨(smooth_hand_pose_shape 1 [zero_smoother_frame]).1 (by decide),
   (smooth_hand_pose_shape 1 [zero_smoother_frame, zero_smoother_frame]).2
     one_pos (by decide)⟩

/-- Membership of a character in Python's `string.punctuation`
(ASCII 33–47, 58–64, 91–96 and 123–126). -/
def is_punct_char (c : Char) : Bool :=
  (decide (33 ≤ c.toNat) && decide (c.toNat ≤ 47)) ||
  (decide (58 ≤ c.toNat) && decide (c.toNat ≤ 64)) ||
  (decide (91 ≤ c.toNat) && decide (c.toNat ≤ 96)) ||
  (decide (123 ≤ c.toNat) && decide (c.toNat ≤ 126))

/-- Embedding of `str.lower()` (the transcripts are ASCII text). -/
def lower_string (s : String) : String :=
  String.mk (s.data.map Char.toLower)

/-- Embedding of `w.strip(string.punctuation)`: remove the longest runs of
punctuation characters from both ends. -/
def strip_punct (s : String) : String :=
  String.mk (((s.data.dropWhile is_punct_char).reverse.dropWhile
    is_punct_char).reverse)

/-- Helper of `split_whitespace`: scan the characters, accumulating the
current (reversed) token on `acc` and emitting it at whitespace or the end. -/
def split_tokens : List Char → List Char → List String
  | [], acc => if acc.isEmpty then [] else [String.mk acc.reverse]
  | c :: cs, acc =>
      if c.isWhitespace then
        (if acc.isEmpty then [] else [String.mk acc.reverse]) ++ split_tokens cs []
      else split_tokens cs (c :: acc)

/-- Embedding of `str.split()` with no argument: split on whitespace runs,
keeping only non-empty tokens. -/
def split_whitespace (s : String) : List String :=
  split_tokens s.data []

/-- Embedding of `transcript_to_words(transcript)` (app.py lines 38–46): the
transcript is the list of the entries' `text` fields; `dataset_words` is the
key set of `word_to_pkl`.  For each entry, each whitespace token of the
lowercased text is stripped of surrounding punctuation, and appended to the
result when the cleaned word is a dataset word not collected yet. -/
def transcript_to_words (dataset_words : List String)
    (transcript : List String) : List String :=
  transcript.foldl (fun words text =>
    (split_whitespace (lower_string text)).foldl (fun ws w =>
      let w_clean := strip_punct w
      if w_clean ∈ dataset_words ∧ w_clean ∉ ws then ws ++ [w_clean] else ws)
      words) []

/-- The cleaned word stream of a transcript: every whitespace token of every
entry, lowercased and stripped, in occurrence order. -/
def clean_word_stream (transcript : List String) : List String :=
  (transcript.map (fun text =>
    (split_whitespace (lower_string text)).map strip_punct)).flatten

/-- Deduplication keeping the first occurrence of every element, in order
(this is what repeatedly appending unseen words computes). -/
def dedup_keep_first (l : List String) : List String :=
  l.foldl (fun acc w => if w ∈ acc then acc else acc ++ [w]) []

/-- Embedding of a lookup `word_to_pkl[word]` in the word-to-file mapping,
modelled as an association list: `none` is a `KeyError`. -/
def word_to_pkl_lookup (mapping : List (String × String)) (w : String) :
    Option String :=
  (mapping.find? (fun kv => kv.1 == w)).map (fun kv => kv.2)

/-- The two nested folds of `transcript_to_words` equal one fold over the
flattened cleaned word stream. -/
theorem transcript_to_words_eq_fold (D : List String) (t : List String) :
    transcript_to_words D t =
      (clean_word_stream t).foldl
        (fun ws w => if w ∈ D ∧ w ∉ ws then ws ++ [w] else ws) [] := by
  rw [transcript_to_words, clean_word_stream]
  induction t using List.reverseRecOn with
  | nil => rfl
  | append_singleton t text ih =>
      rw [List.foldl_append, List.map_append, List.flatten_append,
        List.foldl_append, ih, List.foldl_cons]
      simp only [List.map_cons, List.map_nil, List.flatten_cons, List.flatten_nil,
        List.append_nil, List.foldl_map]
      rfl

/-- Folding the collect step over a stream is folding plain first-occurrence
deduplication over the stream filtered to the dataset words. -/
theorem collect_fold_eq_dedup_filter (D : List String) (l acc : List String) :
    l.foldl (fun ws w => if w ∈ D ∧ w ∉ ws then ws ++ [w] else ws) acc =
      (l.filter (fun w => decide (w ∈ D))).foldl
        (fun ws w => if w ∈ ws then ws else ws ++ [w]) acc := by
  induction l generalizing acc with
  | nil => rfl
  | cons w l ih =>
      by_cases hD : w ∈ D
      · rw [List.foldl_cons,
          show List.filter (fun w => decide (w ∈ D)) (w :: l) =
            w :: List.filter (fun w => decide (w ∈ D)) l by simp [hD],
          List.foldl_cons]
        by_cases hw : w ∈ acc
        · rw [if_neg (by simp [hw]), if_pos hw, ih]
        · rw [if_pos ⟨hD, hw⟩, if_neg hw, ih]
      · rw [List.foldl_cons, if_neg (by simp [hD]),
          show List.filter (fun w => decide (w ∈ D)) (w :: l) =
            List.filter (fun w => decide (w ∈ D)) l by simp [hD], ih]

/-- Membership in a first-occurrence deduplicating fold. -/
theorem dedup_fold_mem (l : List String) (acc : List String) (x : String) :
    x ∈ l.foldl (fun ws w => if w ∈ ws then ws else ws ++ [w]) acc ↔
      x ∈ acc ∨ x ∈ l := by
  induction l generalizing acc with
  | nil => simp
  | cons w l ih =>
      rw [List.foldl_cons]
      by_cases hw : w ∈ acc
      · rw [if_pos hw, ih]
        constructor
        · rintro (hx | hx)
          · exact Or.inl hx
          · exact Or.inr (List.mem_cons_of_mem w hx)
        · rintro (hx | hx)
          · exact Or.inl hx
          · rcases List.mem_cons.mp hx with rfl | hx
            · exact Or.inl hw
            · exact Or.inr hx
      · rw [if_neg hw, ih]
        simp only [List.mem_append, List.mem_singleton, List.mem_cons]
        tauto

/-- A first-occurrence deduplicating fold preserves `Nodup`. -/
theorem dedup_fold_nodup (l : List String) (acc : List String)
    (h : acc.Nodup) :
    (l.foldl (fun ws w => if w ∈ ws then ws else ws ++ [w]) acc).Nodup := by
  induction l generalizing acc with
  | nil => exact h
  | cons w l ih =>
      rw [List.foldl_cons]
      by_cases hw : w ∈ acc
      · rw [if_pos hw]; exact ih acc h
      · rw [if_neg hw]
        refine ih (acc ++ [w]) (List.nodup_append.mpr ⟨h, List.nodup_singleton w, ?_⟩)
        intro x hx hx'
        rw [List.mem_singleton] at hx'
        subst hx'
        exact hw hx

/-- C10: `transcript_to_words` returns exactly the first-occurrence
deduplication of the cleaned word stream filtered to the dataset's word set.
Hence: the result has no duplicates; a word is in the result iff it occurs in
the cleaned stream and is a dataset word (words absent from the dataset are
silently dropped); and every returned word has a `word_to_pkl` entry, so the
lookup in `asl_from_youtube` cannot fail. -/
theorem transcript_to_words_spec (mapping : List (String × String))
    (t : List String) :
    transcript_to_words (mapping.map Prod.fst) t =
        dedup_keep_first ((clean_word_stream t).filter
          (fun w => decide (w ∈ mapping.map Prod.fst))) ∧
      (transcript_to_words (mapping.map Prod.fst) t).Nodup ∧
      (∀ w, w ∈ transcript_to_words (mapping.map Prod.fst) t ↔
        w ∈ clean_word_stream t ∧ w ∈ mapping.map Prod.fst) ∧
      (∀ w ∈ transcript_to_words (mapping.map Prod.fst) t,
        word_to_pkl_lookup mapping w ≠ none) := by
  have heq : transcript_to_words (mapping.map Prod.fst) t =
      dedup_keep_first ((clean_word_stream t).filter
        (fun w => decide (w ∈ mapping.map Prod.fst))) := by
    rw [transcript_to_words_eq_fold, collect_fold_eq_dedup_filter, dedup_keep_first]
  have hmem : ∀ w, w ∈ transcript_to_words (mapping.map Prod.fst) t ↔
      w ∈ clean_word_stream t ∧ w ∈ mapping.map Prod.fst := by
    intro w
    rw [heq, dedup_keep_first, dedup_fold_mem]
    simp [List.mem_filter]
  refine ⟨heq, ?_, hmem, ?_⟩
  · rw [heq, dedup_keep_first]
    exact dedup_fold_nodup _ [] List.nodup_nil
  · intro w hw
    obtain ⟨-, hD⟩ := (hmem w).mp hw
    obtain ⟨⟨k, v⟩, hkv, hk⟩ := List.mem_map.mp hD
    intro hnone
    have hfind : List.find? (fun kv => kv.1 == w) mapping = none := by
      cases hfd : List.find? (fun kv => kv.1 == w) mapping with
      | none => rfl
      | some kv => rw [word_to_pkl_lookup, hfd] at hnone; exact absurd hnone (by simp)
    rw [List.find?_eq_none] at hfind
    exact absurd (by simpa using hk) (by simpa using hfind (k, v) hkv)

/-- Concrete mapping used by the C10 witness. -/
def mapping0 : List (String × String) := [("hello", "00001.pkl")]

/-- Concrete transcript used by the C10 witness. -/
def transcript0 : List String := ["Hello, world!"]

/-- C10 (witness): on the transcript "Hello, world!" with the dataset word
"hello", the cleaned word "hello" is returned (lowercased, punctuation
stripped, present in the dataset) and its file lookup succeeds. -/
theorem transcript_to_words_spec_witness :
    ("hello" ∈ transcript_to_words (mapping0.map Prod.fst) transcript0) ∧
      word_to_pkl_lookup mapping0 "hello" ≠ none :=
  ⟨((transcript_to_words_spec mapping0 transcript0).2.2.1 "hello").mpr
      (by decide),
   (transcript_to_words_spec mapping0 transcript0).2.2.2 "hello"
      (((transcript_to_words_spec mapping0 transcript0).2.2.1 "hello").mpr
        (by decide))⟩

end SignOut
